import Mathlib

/-!
Verification of the core of the Sonnys-Data-API-V2 client library:
the sliding-window rate limiter, the 429 retry/backoff loop of
`SonnysClient._request`, the offset-pagination loops
(`ListableResource._list_paginated`, `Transactions._paginated_fetch`,
`RecurringAccounts._paginated_fetch`), the batch-job poller
(`Transactions._submit_and_poll`), the KPI aggregators of
`StatsResource` (`total_sales`, `total_washes`, `conversion_rate`,
`new_memberships_sold`, `report`) and the date-range validator
`parse_date_range`.

Modelling conventions: Python floats and `time.monotonic()` readings are
modelled as rationals (`ℚ`); machine time is passed explicitly where the
code reads a clock; network responses are passed as explicit scripts
(lists or functions) of the bodies the server would return; fallible
code returns `Option`/`Except`.
-/

namespace SonnysData

/-! ## Rate limiter (`_rate_limiter.py`, class `RateLimiter`) -/

/-- State of `RateLimiter`: the constructor arguments `max_requests`
(default 20) and `window_seconds` (default 15.0), and the deque
`_timestamps` in insertion order (head = oldest). -/
structure RateLimiter where
  max_requests : ℕ
  window_seconds : ℚ
  timestamps : List ℚ
deriving Repr, DecidableEq

namespace RateLimiter

/-- `RateLimiter._purge(now)`: pop from the left while the head is
`<= now - window_seconds`. -/
def purge (rl : RateLimiter) (now : ℚ) : List ℚ :=
  rl.timestamps.dropWhile (fun t => decide (t ≤ now - rl.window_seconds))

/-- `RateLimiter.acquire()`, with the `time.monotonic()` reading passed
as `now`.  Returns the new state and the wait duration; `none` models
the `IndexError` Python would raise indexing `self._timestamps[0]` on an
empty deque (only reachable when `max_requests = 0`). -/
def acquire (rl : RateLimiter) (now : ℚ) : Option (RateLimiter × ℚ) :=
  let purged := rl.purge now
  if purged.length < rl.max_requests then
    some ({ rl with timestamps := purged ++ [now] }, 0)
  else
    match purged with
    | [] => none
    | t :: rest => some ({ rl with timestamps := t :: rest }, t + rl.window_seconds - now)

/-- `RateLimiter.reset()`. -/
def reset (rl : RateLimiter) : RateLimiter :=
  { rl with timestamps := [] }

/-- `RateLimiter.available`, with the clock reading passed as `now`
(as an integer result it would be `max_requests - len(timestamps)`,
never negative because Python, too, only grows the deque up to
`max_requests`). -/
def available (rl : RateLimiter) (now : ℚ) : ℤ :=
  (rl.max_requests : ℤ) - (rl.purge now).length

end RateLimiter

/-- The first element surviving `dropWhile p` fails `p`. -/
lemma head_dropWhile_false {α : Type} (p : α → Bool) :
    ∀ (l : List α) (t : α) (rest : List α), l.dropWhile p = t :: rest → p t = false := by
  intro l
  induction l with
  | nil => intro t rest h; simp [List.dropWhile] at h
  | cons a l ih =>
      intro t rest h
      by_cases ha : p a = true
      · rw [List.dropWhile_cons_of_pos ha] at h
        exact ih t rest h
      · rw [List.dropWhile_cons_of_neg ha] at h
        cases h
        simpa using ha

/-- `dropWhile` never lengthens a list. -/
lemma length_dropWhile_le' {α : Type} (p : α → Bool) (l : List α) :
    (l.dropWhile p).length ≤ l.length := by
  induction l with
  | nil => simp [List.dropWhile]
  | cons a l ih =>
      by_cases ha : p a = true
      · rw [List.dropWhile_cons_of_pos ha]
        exact Nat.le_succ_of_le ih
      · rw [List.dropWhile_cons_of_neg ha]

/-- C3: `RateLimiter.acquire` admits (recording `now`, returning wait `0`)
exactly when fewer than `max_requests` timestamps survive the purge;
otherwise it records nothing and returns `oldest + window_seconds - now`,
which is positive; every returned wait is nonnegative, and a state holding
at most `max_requests` timestamps still does after the call. -/
theorem RateLimiter.acquire_spec (rl : RateLimiter) (now : ℚ) :
    ((rl.purge now).length < rl.max_requests →
        rl.acquire now = some ({ rl with timestamps := rl.purge now ++ [now] }, 0)) ∧
    (rl.max_requests ≤ (rl.purge now).length → 1 ≤ rl.max_requests →
        ∃ t rest, rl.purge now = t :: rest ∧
          rl.acquire now =
            some ({ rl with timestamps := t :: rest }, t + rl.window_seconds - now) ∧
          0 < t + rl.window_seconds - now) ∧
    (∀ rl' w, rl.acquire now = some (rl', w) →
        0 ≤ w ∧ (rl.timestamps.length ≤ rl.max_requests →
          rl'.timestamps.length ≤ rl.max_requests)) := by
  have hpos : ∀ t rest, rl.purge now = t :: rest → 0 < t + rl.window_seconds - now := by
    intro t rest hp
    have hfalse := head_dropWhile_false _ _ _ _ hp
    have : ¬ (t ≤ now - rl.window_seconds) := by
      intro hle
      simp [hle] at hfalse
    linarith [not_le.mp this]
  refine ⟨?_, ?_, ?_⟩
  · intro h
    simp [RateLimiter.acquire, h]
  · intro hge h1
    have hne : rl.purge now ≠ [] := by
      intro hnil
      rw [hnil] at hge
      simp at hge
      omega
    obtain ⟨t, rest, hp⟩ := List.exists_cons_of_ne_nil hne
    refine ⟨t, rest, hp, ?_, hpos t rest hp⟩
    simp only [RateLimiter.acquire, hp]
    rw [if_neg (by rw [← hp]; omega)]
  · intro rl' w hacq
    simp only [RateLimiter.acquire] at hacq
    by_cases hlt : (rl.purge now).length < rl.max_requests
    · rw [if_pos hlt] at hacq
      obtain ⟨h1, h2⟩ := Prod.mk.injEq .. ▸ Option.some.inj hacq
      constructor
      · rw [← h2]
      · intro _
        rw [← h1]
        simp only [List.length_append, List.length_singleton]
        omega
    · rw [if_neg hlt] at hacq
      cases hp : rl.purge now with
      | nil => rw [hp] at hacq; exact absurd hacq (by simp)
      | cons t rest =>
          rw [hp] at hacq
          obtain ⟨h1, h2⟩ := Prod.mk.injEq .. ▸ Option.some.inj hacq
          constructor
          · rw [← h2]
            exact le_of_lt (hpos t rest hp)
          · intro hold
            rw [← h1]
            calc (t :: rest).length = (rl.purge now).length := by rw [hp]
              _ ≤ rl.timestamps.length := length_dropWhile_le' _ _
              _ ≤ rl.max_requests := hold

/-- Witness for C3 at concrete states: a limiter with limit 2, window 15
and one timestamp admits at `now = 10`; with two live timestamps it is at
capacity and returns a positive wait without recording. -/
theorem RateLimiter.acquire_spec_witness :
    RateLimiter.acquire ⟨2, 15, [0]⟩ 10 =
      some (⟨2, 15, RateLimiter.purge ⟨2, 15, [0]⟩ 10 ++ [10]⟩, 0) ∧
    (∃ t rest, RateLimiter.purge ⟨2, 15, [0, 1]⟩ 10 = t :: rest ∧
      RateLimiter.acquire ⟨2, 15, [0, 1]⟩ 10 = some (⟨2, 15, t :: rest⟩, t + 15 - 10) ∧
      0 < t + 15 - 10) ∧
    (0 ≤ (5 : ℚ) ∧ (List.length [(0 : ℚ), 1] ≤ 2 → List.length [(0 : ℚ), 1] ≤ 2)) :=
  ⟨(RateLimiter.acquire_spec ⟨2, 15, [0]⟩ 10).1
      (by norm_num [RateLimiter.purge, List.dropWhile]),
   (RateLimiter.acquire_spec ⟨2, 15, [0, 1]⟩ 10).2.1
      (by norm_num [RateLimiter.purge, List.dropWhile]) (by norm_num),
   (RateLimiter.acquire_spec ⟨2, 15, [0, 1]⟩ 10).2.2 ⟨2, 15, [0, 1]⟩ 5
      (by norm_num [RateLimiter.acquire, RateLimiter.purge, List.dropWhile])⟩

/-! ## Retry/backoff loop (`_client.py`, `SonnysClient._request`)

The HTTP layer is abstracted as `status : ℕ → ℕ`, the status code the
server would answer on the zero-indexed `attempt`-th send.  Connection
errors and timeouts abort the loop before any status handling and carry
no backoff, so they are not modelled here.  The local rate-limiter sleep
(step 1) is accounted separately by `RateLimiter.acquire` above; the
sleep list collected below holds only the 429 backoff sleeps
`base_delay * 2**attempt` with `base_delay = 1.0`. -/

/-- Outcome of `SonnysClient._request`. -/
inductive ReqResult where
  /-- `response.status_code < 400`: the response is returned. -/
  | ok (code : ℕ)
  /-- 429 with retries exhausted: `make_status_error` is raised. -/
  | rateLimited (code : ℕ)
  /-- any other status `>= 400`: `make_status_error` is raised at once. -/
  | statusErr (code : ℕ)
deriving Repr, DecidableEq

/-- The `for attempt in range(max_retries + 1)` loop of
`SonnysClient._request`, entered at attempt index `a`; returns the list
of backoff sleep durations performed and the outcome. -/
def requestFrom (status : ℕ → ℕ) (max_retries : ℕ) (a : ℕ) : List ℚ × ReqResult :=
  if status a < 400 then
    ([], .ok (status a))
  else if status a = 429 then
    if _h : a < max_retries then
      let r := requestFrom status max_retries (a + 1)
      (1 * (2 : ℚ) ^ a :: r.1, r.2)
    else
      ([], .rateLimited (status a))
  else
    ([], .statusErr (status a))
termination_by max_retries - a

/-- `SonnysClient._request` with the given per-attempt server statuses:
the loop starts at attempt 0. -/
def clientRequest (status : ℕ → ℕ) (max_retries : ℕ) : List ℚ × ReqResult :=
  requestFrom status max_retries 0

/-- Unfolding `requestFrom` over a run of 429s ending in a success. -/
lemma requestFrom_runOf429 (status : ℕ → ℕ) (m : ℕ) :
    ∀ (k a : ℕ), (∀ i, a ≤ i → i < a + k → status i = 429) → status (a + k) < 400 →
      a + k ≤ m →
      requestFrom status m a =
        ((List.range' a k).map (fun i => 1 * (2 : ℚ) ^ i), .ok (status (a + k))) := by
  intro k
  induction k with
  | zero =>
      intro a _ hok _
      rw [requestFrom]
      simp at hok ⊢
      simp [hok]
  | succ k ih =>
      intro a h429 hok hle
      have ha : status a = 429 := h429 a le_rfl (by omega)
      have halt : a < m := by omega
      rw [requestFrom]
      rw [ha]
      simp only [show ¬ (429 < 400) by omega, if_false, if_pos rfl, dif_pos halt]
      have := ih (a + 1) (fun i hi hi2 => h429 i (by omega) (by omega))
        (by rw [show a + 1 + k = a + (k + 1) by omega]; exact hok)
        (by omega)
      rw [this]
      rw [List.range'_succ]
      simp [show a + 1 + k = a + (k + 1) by omega]

/-- Unfolding `requestFrom` when every remaining attempt answers 429. -/
lemma requestFrom_all429 (status : ℕ → ℕ) (m : ℕ) :
    ∀ (n a : ℕ), m - a = n → a ≤ m → (∀ i, a ≤ i → i ≤ m → status i = 429) →
      requestFrom status m a =
        ((List.range' a n).map (fun i => 1 * (2 : ℚ) ^ i), .rateLimited 429) := by
  intro n
  induction n with
  | zero =>
      intro a ha ham h429
      rw [requestFrom]
      have : status a = 429 := h429 a le_rfl ham
      rw [this]
      simp only [show ¬ (429 < 400) by omega, if_false, if_pos rfl]
      rw [dif_neg (by omega)]
      simp
  | succ n ih =>
      intro a ha ham h429
      have h1 : status a = 429 := h429 a le_rfl ham
      rw [requestFrom, h1]
      simp only [show ¬ (429 < 400) by omega, if_false, if_pos rfl]
      rw [dif_pos (by omega)]
      have := ih (a + 1) (by omega) (by omega)
        (fun i hi1 hi2 => h429 i (by omega) hi2)
      rw [this]
      rw [List.range'_succ]
      simp

/-- C1: with `max_retries = m`, if the first `k` attempts answer 429 and
attempt `k` (zero-indexed) answers a status `< 400` with `k ≤ m`, then
`_request` performs exactly the backoff sleeps `1*2^0, …, 1*2^(k-1)`
seconds and returns that response; if every one of the `m + 1` attempts
answers 429, it raises the rate-limit error after exactly the `m`
backoff sleeps `1*2^0, …, 1*2^(m-1)`. -/
theorem clientRequest_backoff_spec (status : ℕ → ℕ) (m k : ℕ) :
    ((∀ i, i < k → status i = 429) → status k < 400 → k ≤ m →
      clientRequest status m =
        ((List.range k).map (fun i => 1 * (2 : ℚ) ^ i), .ok (status k))) ∧
    ((∀ i, i ≤ m → status i = 429) →
      clientRequest status m =
        ((List.range m).map (fun i => 1 * (2 : ℚ) ^ i), .rateLimited 429)) := by
  constructor
  · intro h429 hok hkm
    have := requestFrom_runOf429 status m k 0
      (fun i _ hi => h429 i (by omega)) (by simpa using hok) (by omega)
    simpa [clientRequest, List.range_eq_range'] using this
  · intro h429
    have := requestFrom_all429 status m m 0 (by omega) (by omega) (fun i _ hi => h429 i hi)
    simpa [clientRequest, List.range_eq_range'] using this

/-- Witness for C1: `max_retries = 3`; responses 429, 429, 200 give two
backoff sleeps of 1 and 2 seconds then return 200; all-429 responses
give three backoff sleeps of 1, 2, 4 seconds then the rate-limit error. -/
theorem clientRequest_backoff_spec_witness :
    clientRequest (fun i => if i < 2 then 429 else 200) 3 =
      ([1 * (2 : ℚ) ^ 0, 1 * (2 : ℚ) ^ 1], .ok 200) ∧
    clientRequest (fun _ => 429) 3 =
      ([1 * (2 : ℚ) ^ 0, 1 * (2 : ℚ) ^ 1, 1 * (2 : ℚ) ^ 2], .rateLimited 429) := by
  constructor
  · have := (clientRequest_backoff_spec (fun i => if i < 2 then 429 else 200) 3 2).1
      (by intro i hi; simp [hi]) (by norm_num) (by norm_num)
    simpa [List.range_succ] using this
  · have := (clientRequest_backoff_spec (fun _ => 429) 3 0).2 (by intro i _; rfl)
    simpa [List.range_succ] using this

/-! ## Pagination loops (`_resources.py`, `resources/_transactions.py`,
`resources/_recurring.py`)

A list endpoint is abstracted as `server : ℕ → Page`, giving for each
value of the `offset` query parameter the decoded `data` object: the
items array (already validated items, modelled as `ℤ`) and the optional
`total` field.  The loops are given fuel because nothing in the code
bounds them when the server keeps answering; `none` means the fuel ran
out, and every claim is settled on runs that finish within fuel.  Each
result also carries the list of `offset` values sent, in request order. -/

/-- The decoded `data` object of one list response. -/
structure Page where
  items : List ℤ
  total : Option ℕ
deriving Repr, DecidableEq

/-- `ListableResource._list_paginated`: the `while True` loop, with
`offset` as loop variable.  Items are decoded and appended, then
`offset += limit`, then `if total is None or offset > total: break`. -/
def listPaginatedAux (server : ℕ → Page) (limit : ℕ) :
    ℕ → ℕ → Option (List ℕ × List ℤ)
  | 0, _ => none
  | fuel + 1, offset =>
    let page := server offset
    let offset2 := offset + limit
    match page.total with
    | none => some ([offset], page.items)
    | some t =>
      if t < offset2 then
        some ([offset], page.items)
      else
        match listPaginatedAux server limit fuel offset2 with
        | none => none
        | some (offs, items) => some (offset :: offs, page.items ++ items)

/-- `ListableResource._list_paginated` starts at `offset = 1` with page
size `self._default_limit` (100 on every concrete resource). -/
def listPaginated (server : ℕ → Page) (limit fuel : ℕ) : Option (List ℕ × List ℤ) :=
  listPaginatedAux server limit fuel 1

/-- `RecurringAccounts._paginated_fetch` repeats the `_list_paginated`
loop verbatim with `limit` as an argument; it also starts at offset 1
and advances the offset by `limit`. -/
def recurringPaginatedFetch (server : ℕ → Page) (limit fuel : ℕ) :
    Option (List ℕ × List ℤ) :=
  listPaginatedAux server limit fuel 1

/-- `Transactions._paginated_fetch`: the loop variable `page` is sent as
the `offset` parameter and advances by 1; the loop breaks on a short
page (`len(items) < limit`), else, after `page += 1`, when the server
reports a total and `len(all_items) >= total`. -/
def transactionsPaginatedFetchAux (server : ℕ → Page) (limit : ℕ) :
    ℕ → ℕ → List ℤ → Option (List ℕ × List ℤ)
  | 0, _, _ => none
  | fuel + 1, page, acc =>
    let pg := server page
    let acc2 := acc ++ pg.items
    if pg.items.length < limit then
      some ([page], acc2)
    else
      match pg.total with
      | some t =>
        if t ≤ acc2.length then
          some ([page], acc2)
        else
          match transactionsPaginatedFetchAux server limit fuel (page + 1) acc2 with
          | none => none
          | some (offs, items) => some (page :: offs, items)
      | none =>
        match transactionsPaginatedFetchAux server limit fuel (page + 1) acc2 with
        | none => none
        | some (offs, items) => some (page :: offs, items)

/-- `Transactions._paginated_fetch` starts at `page = 1` with an empty
accumulator. -/
def transactionsPaginatedFetch (server : ℕ → Page) (limit fuel : ℕ) :
    Option (List ℕ × List ℤ) :=
  transactionsPaginatedFetchAux server limit fuel 1 []

/-- A server holding 250 items (numbered 1–250), reporting `total = 250`
and answering the `offset` parameter positionally: the page at `offset`
holds items `offset … min (offset + 99) 250`. -/
def server250 : ℕ → Page :=
  fun offset => ⟨(List.range' offset (min 100 (251 - offset))).map Int.ofNat, some 250⟩

/-- A server reporting `total = 0` with no items. -/
def serverZero : ℕ → Page :=
  fun _ => ⟨[], some 0⟩

/-- A server holding 250 items which interprets the `offset` parameter
as a 1-based page number of size 100 — the convention the
`/transaction/type/...` and `/transaction/version-2` endpoints follow,
matching the page numbers `Transactions._paginated_fetch` sends. -/
def txnPageServer250 : ℕ → Page :=
  fun page =>
    if page = 1 then ⟨(List.range' 1 100).map Int.ofNat, some 250⟩
    else if page = 2 then ⟨(List.range' 101 100).map Int.ofNat, some 250⟩
    else if page = 3 then ⟨(List.range' 201 50).map Int.ofNat, some 250⟩
    else ⟨[], some 250⟩

/-- C2, counterexample: the claim predicts request offsets 1, 101, 201
for *every* paginated list fetch over a 250-item server with page size
100, but `Transactions._paginated_fetch` sends the offsets 1, 2, 3. -/
theorem transactions_offset_counterexample :
    transactionsPaginatedFetch txnPageServer250 100 10 =
      some ([1, 2, 3], (List.range' 1 250).map Int.ofNat) ∧
    ([1, 2, 3] : List ℕ) ≠ [1, 101, 201] := by
  constructor
  · rfl
  · decide

/-- C2 (amended): `ListableResource._list_paginated` starts its offset
cursor at 1 and advances it by the page size — server total 250, page
size 100: exactly 3 requests at offsets 1, 101, 201 returning all 250
items in arrival order, and total 0: one request returning nothing —
while `Transactions._paginated_fetch` sends a 1-based page number as the
`offset` parameter, advancing by 1: the same dataset takes exactly 3
requests at offsets 1, 2, 3 and returns all 250 items in order. -/
theorem pagination_cursor_spec :
    listPaginated server250 100 10 =
      some ([1, 101, 201], (List.range' 1 250).map Int.ofNat) ∧
    listPaginated serverZero 100 10 = some ([1], []) ∧
    transactionsPaginatedFetch txnPageServer250 100 10 =
      some ([1, 2, 3], (List.range' 1 250).map Int.ofNat) := by
  refine ⟨?_, ?_, ?_⟩ <;> rfl

/-- A server that reports no total and always answers a full page of 100
items (the page at `offset` holds `offset … offset + 99`). -/
def fullPagesNoTotal : ℕ → Page :=
  fun offset => ⟨(List.range' offset 100).map Int.ofNat, none⟩

/-- Items accumulated over the pages `p, p+1, …, p+n-1`, in arrival
order, onto an accumulator. -/
def pagesConcat (server : ℕ → Page) (p n : ℕ) (acc : List ℤ) : List ℤ :=
  (List.range' p n).foldl (fun a q => a ++ (server q).items) acc

/-- `Transactions._paginated_fetch` over a server that never reports a
total: pages `p … p+n-1` full and page `p+n` short make the loop visit
exactly pages `p … p+n` and return everything accumulated. -/
lemma transactionsFetchAux_full_short (server : ℕ → Page) (limit : ℕ)
    (htot : ∀ q, (server q).total = none) :
    ∀ (n p : ℕ) (acc : List ℤ) (fuel : ℕ),
      (∀ q, p ≤ q → q < p + n → ((server q).items).length = limit) →
      ((server (p + n)).items).length < limit →
      n + 1 ≤ fuel →
      transactionsPaginatedFetchAux server limit fuel p acc =
        some (List.range' p (n + 1), pagesConcat server p (n + 1) acc) := by
  intro n
  induction n with
  | zero =>
      intro p acc fuel _ hshort hfuel
      obtain ⟨f, rfl⟩ : ∃ f, fuel = f + 1 := ⟨fuel - 1, by omega⟩
      simp only [transactionsPaginatedFetchAux]
      rw [if_pos (by simpa using hshort)]
      simp [pagesConcat, List.range'_succ]
  | succ n ih =>
      intro p acc fuel hfull hshort hfuel
      obtain ⟨f, rfl⟩ : ∃ f, fuel = f + 1 := ⟨fuel - 1, by omega⟩
      simp only [transactionsPaginatedFetchAux]
      rw [if_neg (by rw [hfull p le_rfl (by omega)]; omega)]
      rw [htot p]
      have := ih (p + 1) (acc ++ (server p).items) f
        (fun q hq1 hq2 => hfull q (by omega) (by omega))
        (by rw [show p + 1 + n = p + (n + 1) by omega]; exact hshort)
        (by omega)
      rw [this, List.range'_succ]
      rfl

/-- C6, counterexample: against a server that reports no total and
answers a *full* page of 100 items, `ListableResource._list_paginated`
still stops after the first request — the claimed rule "stop exactly on
a page with fewer items than the page size" does not govern this loop,
which breaks whenever `total` is absent. -/
theorem no_total_full_page_counterexample :
    listPaginated fullPagesNoTotal 100 10 =
      some ([1], (List.range' 1 100).map Int.ofNat) ∧
    ((fullPagesNoTotal 1).items).length = 100 ∧ ¬ (100 < 100) := by
  refine ⟨rfl, rfl, by omega⟩

/-- C6 (amended): when the server does not report a total,
`Transactions._paginated_fetch` stops exactly on the first short page
(full pages `1 … n-1`, short page `n`: exactly the `n` requests
`1 … n`, all accumulated items returned), whereas
`ListableResource._list_paginated` — and the identical
`RecurringAccounts._paginated_fetch` — stop after the first page
unconditionally whenever `total` is absent, even when that page is
full. -/
theorem no_total_termination_spec (server : ℕ → Page) (limit n fuel : ℕ) :
    ((∀ q, (server q).total = none) →
      (∀ q, 1 ≤ q → q < n → ((server q).items).length = limit) →
      ((server n).items).length < limit → 1 ≤ n → n ≤ fuel →
      transactionsPaginatedFetch server limit fuel =
        some (List.range' 1 n, pagesConcat server 1 n [])) ∧
    ((server 1).total = none → 1 ≤ fuel →
      listPaginated server limit fuel = some ([1], (server 1).items) ∧
      recurringPaginatedFetch server limit fuel = some ([1], (server 1).items)) := by
  constructor
  · intro htot hfull hshort hn hfuel
    have := transactionsFetchAux_full_short server limit htot (n - 1) 1 [] fuel
      (fun q hq1 hq2 => hfull q hq1 (by omega))
      (by rw [show 1 + (n - 1) = n by omega]; exact hshort)
      (by omega)
    rw [show n - 1 + 1 = n by omega] at this
    exact this
  · intro htot hfuel
    obtain ⟨f, rfl⟩ : ∃ f, fuel = f + 1 := ⟨fuel - 1, by omega⟩
    constructor <;>
      · simp only [listPaginated, recurringPaginatedFetch, listPaginatedAux]
        rw [htot]

/-- Witness for C6 at a concrete scenario: limit 2, pages
`1 ↦ [10, 11]` (full), `2 ↦ [12]` (short), no totals: the transactions
loop makes exactly the requests 1, 2 and returns `[10, 11, 12]`; the
`_list_paginated` loop on the same server stops after request 1. -/
theorem no_total_termination_spec_witness :
    transactionsPaginatedFetch
        (fun q => if q = 1 then ⟨[10, 11], none⟩ else ⟨[12], none⟩) 2 5 =
      some (List.range' 1 2,
        pagesConcat (fun q => if q = 1 then ⟨[10, 11], none⟩ else ⟨[12], none⟩) 1 2 []) ∧
    listPaginated (fun q => if q = 1 then ⟨[10, 11], none⟩ else ⟨[12], none⟩) 2 5 =
      some ([1], [10, 11]) ∧
    recurringPaginatedFetch
        (fun q => if q = 1 then ⟨[10, 11], none⟩ else ⟨[12], none⟩) 2 5 =
      some ([1], [10, 11]) := by
  have h := no_total_termination_spec
    (fun q => if q = 1 then (⟨[10, 11], none⟩ : Page) else ⟨[12], none⟩) 2 2 5
  refine ⟨h.1 (fun q => by by_cases hq : q = 1 <;> simp [hq])
    (fun q hq1 hq2 => by
      have hq : q = 1 := by omega
      subst hq
      rfl)
    (by decide) (by decide) (by decide), ?_, ?_⟩
  · exact (h.2 (by norm_num) (by norm_num)).1
  · exact (h.2 (by norm_num) (by norm_num)).2

/-! ## KPI aggregators (`resources/_stats.py`, `StatsResource`)

The aggregators consume an already-fetched, already-validated dataset:
the v2 transaction list (`list_v2`) and the set `wash_ids` of
`trans_id`s returned by `list_by_type("wash")`.  Revenue floats are
modelled as `ℚ`; `wash_ids` as a list of strings with `in` as list
membership.  `report`'s `period_start`/`period_end` strings are not part
of any KPI and are omitted from the result structure. -/

/-- `TransactionV2ListItem`: the fields the aggregators read. -/
structure TransactionV2ListItem where
  trans_id : String
  total : ℚ
  is_recurring_plan_sale : Bool
  is_recurring_plan_redemption : Bool
deriving Repr, DecidableEq

/-- `SalesResult` (`types/_stats.py`). -/
structure SalesResult where
  total : ℚ
  count : ℕ
  recurring_plan_sales : ℚ
  recurring_plan_sales_count : ℕ
  recurring_redemptions : ℚ
  recurring_redemptions_count : ℕ
  retail : ℚ
  retail_count : ℕ
deriving Repr, DecidableEq

/-- `WashResult` (`types/_stats.py`). -/
structure WashResult where
  total : ℕ
  retail_wash_count : ℕ
  member_wash_count : ℕ
  eligible_wash_count : ℕ
  free_wash_count : ℕ
deriving Repr, DecidableEq

/-- `ConversionResult` (`types/_stats.py`). -/
structure ConversionResult where
  rate : ℚ
  new_memberships : ℕ
  eligible_washes : ℕ
deriving Repr, DecidableEq

/-- `StatsReport` (`types/_stats.py`), without the period strings. -/
structure StatsReport where
  sales : SalesResult
  washes : WashResult
  new_memberships : ℕ
  conversion : ConversionResult
deriving Repr, DecidableEq

/-- Running accumulator of the `total_sales` loop. -/
structure SalesAcc where
  recurring_plan_sales : ℚ
  recurring_plan_sales_count : ℕ
  recurring_redemptions : ℚ
  recurring_redemptions_count : ℕ
  retail : ℚ
  retail_count : ℕ
deriving Repr, DecidableEq

/-- One iteration of the `total_sales` classification loop. -/
def salesStep (a : SalesAcc) (txn : TransactionV2ListItem) : SalesAcc :=
  if txn.is_recurring_plan_sale then
    { a with recurring_plan_sales := a.recurring_plan_sales + txn.total,
             recurring_plan_sales_count := a.recurring_plan_sales_count + 1 }
  else if txn.is_recurring_plan_redemption then
    { a with recurring_redemptions := a.recurring_redemptions + txn.total,
             recurring_redemptions_count := a.recurring_redemptions_count + 1 }
  else
    { a with retail := a.retail + txn.total,
             retail_count := a.retail_count + 1 }

/-- `StatsResource.total_sales`, applied to the fetched v2 dataset. -/
def total_sales (transactions : List TransactionV2ListItem) : SalesResult :=
  let a := transactions.foldl salesStep ⟨0, 0, 0, 0, 0, 0⟩
  { total := a.recurring_plan_sales + a.recurring_redemptions + a.retail,
    count := a.recurring_plan_sales_count + a.recurring_redemptions_count
      + a.retail_count,
    recurring_plan_sales := a.recurring_plan_sales,
    recurring_plan_sales_count := a.recurring_plan_sales_count,
    recurring_redemptions := a.recurring_redemptions,
    recurring_redemptions_count := a.recurring_redemptions_count,
    retail := a.retail,
    retail_count := a.retail_count }

/-- Running accumulator of the `total_washes` loop. -/
structure WashAcc where
  member_wash_count : ℕ
  retail_wash_count : ℕ
  eligible_wash_count : ℕ
  free_wash_count : ℕ
deriving Repr, DecidableEq

/-- One iteration of the `total_washes` classification loop. -/
def washStep (wash_ids : List String) (a : WashAcc) (txn : TransactionV2ListItem) :
    WashAcc :=
  if txn.is_recurring_plan_redemption then
    { a with member_wash_count := a.member_wash_count + 1 }
  else if txn.trans_id ∈ wash_ids ∧ txn.is_recurring_plan_sale = false then
    let a2 := { a with retail_wash_count := a.retail_wash_count + 1 }
    if 0 < txn.total then
      { a2 with eligible_wash_count := a2.eligible_wash_count + 1 }
    else if txn.total = 0 then
      { a2 with free_wash_count := a2.free_wash_count + 1 }
    else a2
  else a

/-- `StatsResource.total_washes`, applied to the fetched `wash_ids` set
and v2 dataset. -/
def total_washes (wash_ids : List String)
    (v2_transactions : List TransactionV2ListItem) : WashResult :=
  let a := v2_transactions.foldl (washStep wash_ids) ⟨0, 0, 0, 0⟩
  { total := a.member_wash_count + a.retail_wash_count,
    retail_wash_count := a.retail_wash_count,
    member_wash_count := a.member_wash_count,
    eligible_wash_count := a.eligible_wash_count,
    free_wash_count := a.free_wash_count }

/-- One iteration of the `conversion_rate` loop; the accumulator is
`(new_memberships, eligible_washes)`. -/
def conversionStep (wash_ids : List String) (a : ℕ × ℕ)
    (txn : TransactionV2ListItem) : ℕ × ℕ :=
  if txn.is_recurring_plan_sale then
    (a.1 + 1, a.2)
  else if txn.trans_id ∈ wash_ids ∧ txn.is_recurring_plan_redemption = false
      ∧ 0 < txn.total then
    (a.1, a.2 + 1)
  else a

/-- `StatsResource.conversion_rate`, applied to the fetched dataset. -/
def conversion_rate (wash_ids : List String)
    (v2_transactions : List TransactionV2ListItem) : ConversionResult :=
  let a := v2_transactions.foldl (conversionStep wash_ids) (0, 0)
  { rate := if 0 < a.2 then (a.1 : ℚ) / (a.2 : ℚ) else 0,
    new_memberships := a.1,
    eligible_washes := a.2 }

/-- `StatsResource.new_memberships_sold`, applied to the fetched v2
dataset: `sum(1 for t in transactions if t.is_recurring_plan_sale)`. -/
def new_memberships_sold (transactions : List TransactionV2ListItem) : ℕ :=
  transactions.countP (fun t => t.is_recurring_plan_sale)

/-- Running accumulator of the single-pass `report` loop. -/
structure ReportAcc where
  recurring_plan_sales : ℚ
  recurring_plan_sales_count : ℕ
  recurring_redemptions : ℚ
  recurring_redemptions_count : ℕ
  retail : ℚ
  retail_count : ℕ
  retail_wash_count : ℕ
  eligible_wash_count : ℕ
  free_wash_count : ℕ
deriving Repr, DecidableEq

/-- One iteration of the single-pass `report` classification loop. -/
def reportStep (wash_ids : List String) (a : ReportAcc)
    (txn : TransactionV2ListItem) : ReportAcc :=
  if txn.is_recurring_plan_sale then
    { a with recurring_plan_sales := a.recurring_plan_sales + txn.total,
             recurring_plan_sales_count := a.recurring_plan_sales_count + 1 }
  else if txn.is_recurring_plan_redemption then
    { a with recurring_redemptions := a.recurring_redemptions + txn.total,
             recurring_redemptions_count := a.recurring_redemptions_count + 1 }
  else
    let a2 := { a with retail := a.retail + txn.total,
                       retail_count := a.retail_count + 1 }
    if txn.trans_id ∈ wash_ids then
      let a3 := { a2 with retail_wash_count := a2.retail_wash_count + 1 }
      if 0 < txn.total then
        { a3 with eligible_wash_count := a3.eligible_wash_count + 1 }
      else if txn.total = 0 then
        { a3 with free_wash_count := a3.free_wash_count + 1 }
      else a3
    else a2

/-- `StatsResource.report`, applied to the fetched dataset: one pass
builds the `SalesResult`, the `WashResult`
(`member_wash_count = recurring_redemptions_count`), the new-membership
count (`= recurring_plan_sales_count`) and the `ConversionResult`. -/
def report (wash_ids : List String)
    (v2_transactions : List TransactionV2ListItem) : StatsReport :=
  let a := v2_transactions.foldl (reportStep wash_ids) ⟨0, 0, 0, 0, 0, 0, 0, 0, 0⟩
  { sales :=
      { total := a.recurring_plan_sales + a.recurring_redemptions + a.retail,
        count := a.recurring_plan_sales_count + a.recurring_redemptions_count
          + a.retail_count,
        recurring_plan_sales := a.recurring_plan_sales,
        recurring_plan_sales_count := a.recurring_plan_sales_count,
        recurring_redemptions := a.recurring_redemptions,
        recurring_redemptions_count := a.recurring_redemptions_count,
        retail := a.retail,
        retail_count := a.retail_count },
    washes :=
      { total := a.recurring_redemptions_count + a.retail_wash_count,
        retail_wash_count := a.retail_wash_count,
        member_wash_count := a.recurring_redemptions_count,
        eligible_wash_count := a.eligible_wash_count,
        free_wash_count := a.free_wash_count },
    new_memberships := a.recurring_plan_sales_count,
    conversion :=
      { rate := if 0 < a.eligible_wash_count then
          (a.recurring_plan_sales_count : ℚ) / (a.eligible_wash_count : ℚ) else 0,
        new_memberships := a.recurring_plan_sales_count,
        eligible_washes := a.eligible_wash_count } }

/-- The `total_sales` first branch: `txn.is_recurring_plan_sale`. -/
def pSale (t : TransactionV2ListItem) : Bool :=
  t.is_recurring_plan_sale

/-- The `total_sales` second branch: not a plan sale, a redemption. -/
def pRedeem (t : TransactionV2ListItem) : Bool :=
  !t.is_recurring_plan_sale && t.is_recurring_plan_redemption

/-- The `total_sales` third branch: neither flag. -/
def pRetail (t : TransactionV2ListItem) : Bool :=
  !t.is_recurring_plan_sale && !t.is_recurring_plan_redemption

/-- A retail wash: neither flag, and a `type=wash` id. -/
def pRetailWash (wash_ids : List String) (t : TransactionV2ListItem) : Bool :=
  pRetail t && decide (t.trans_id ∈ wash_ids)

/-- A retail wash with positive total. -/
def pEligibleWash (wash_ids : List String) (t : TransactionV2ListItem) : Bool :=
  pRetailWash wash_ids t && decide (0 < t.total)

/-- A retail wash with zero total. -/
def pFreeWash (wash_ids : List String) (t : TransactionV2ListItem) : Bool :=
  pRetailWash wash_ids t && decide (t.total = 0)

/-- A retail wash with negative total. -/
def pNegativeWash (wash_ids : List String) (t : TransactionV2ListItem) : Bool :=
  pRetailWash wash_ids t && decide (t.total < 0)

/-- How one `salesStep` moves each count field. -/
lemma salesStep_counts (a : SalesAcc) (t : TransactionV2ListItem) :
    (salesStep a t).recurring_plan_sales_count
        = a.recurring_plan_sales_count + (if pSale t then 1 else 0) ∧
    (salesStep a t).recurring_redemptions_count
        = a.recurring_redemptions_count + (if pRedeem t then 1 else 0) ∧
    (salesStep a t).retail_count = a.retail_count + (if pRetail t then 1 else 0) := by
  cases hs : t.is_recurring_plan_sale <;> cases hr : t.is_recurring_plan_redemption <;>
    simp [salesStep, pSale, pRedeem, pRetail, hs, hr]

/-- The count fields of the `total_sales` fold are `countP`s. -/
lemma salesFoldl_counts :
    ∀ (txns : List TransactionV2ListItem) (a : SalesAcc),
      (txns.foldl salesStep a).recurring_plan_sales_count
          = a.recurring_plan_sales_count + txns.countP pSale ∧
      (txns.foldl salesStep a).recurring_redemptions_count
          = a.recurring_redemptions_count + txns.countP pRedeem ∧
      (txns.foldl salesStep a).retail_count = a.retail_count + txns.countP pRetail := by
  intro txns
  induction txns with
  | nil => intro a; simp
  | cons t txns ih =>
      intro a
      obtain ⟨h1, h2, h3⟩ := ih (salesStep a t)
      obtain ⟨s1, s2, s3⟩ := salesStep_counts a t
      simp only [List.foldl_cons, List.countP_cons, h1, h2, h3, s1, s2, s3]
      refine ⟨?_, ?_, ?_⟩ <;> split_ifs <;> omega

/-- The three sales predicates partition any transaction list. -/
lemma countP_sales_partition (txns : List TransactionV2ListItem) :
    txns.countP pSale + txns.countP pRedeem + txns.countP pRetail = txns.length := by
  induction txns with
  | nil => simp
  | cons t txns ih =>
      simp only [List.countP_cons, List.length_cons]
      cases hs : t.is_recurring_plan_sale <;> cases hr : t.is_recurring_plan_redemption <;>
        simp [pSale, pRedeem, pRetail, hs, hr] <;> omega

/-- The sales part of a `ReportAcc`. -/
def salesProj (a : ReportAcc) : SalesAcc :=
  ⟨a.recurring_plan_sales, a.recurring_plan_sales_count,
   a.recurring_redemptions, a.recurring_redemptions_count,
   a.retail, a.retail_count⟩

/-- `reportStep` moves the sales fields exactly as `salesStep` does. -/
lemma salesProj_reportStep (wash_ids : List String) (a : ReportAcc)
    (t : TransactionV2ListItem) :
    salesProj (reportStep wash_ids a t) = salesStep (salesProj a) t := by
  simp only [reportStep, salesStep, salesProj]
  split_ifs <;> rfl

/-- The `report` fold projects onto the `total_sales` fold. -/
lemma salesProj_foldl (wash_ids : List String) :
    ∀ (txns : List TransactionV2ListItem) (a : ReportAcc),
      salesProj (txns.foldl (reportStep wash_ids) a)
        = txns.foldl salesStep (salesProj a) := by
  intro txns
  induction txns with
  | nil => intro a; rfl
  | cons t txns ih =>
      intro a
      simp only [List.foldl_cons, ih, salesProj_reportStep]

/-- `report` builds the same `SalesResult` as `total_sales`. -/
lemma report_sales_eq (wash_ids : List String) (txns : List TransactionV2ListItem) :
    (report wash_ids txns).sales = total_sales txns := by
  have h : (txns.foldl salesStep ⟨0, 0, 0, 0, 0, 0⟩ : SalesAcc)
      = salesProj (txns.foldl (reportStep wash_ids) ⟨0, 0, 0, 0, 0, 0, 0, 0, 0⟩) :=
    (salesProj_foldl wash_ids txns ⟨0, 0, 0, 0, 0, 0, 0, 0, 0⟩).symm
  simp only [report, total_sales, h]
  rfl

/-- C7: `total_sales` (and the sales component of `report`) buckets each
transaction into exactly one of plan-sale / redemption / retail — the
three branch predicates are mutually exclusive and exhaustive and the
three counts are their `countP`s — the grand count is the sum of the
three bucket counts and equals the input length, and the grand total is
the sum of the three bucket revenues. -/
theorem total_sales_partition (wash_ids : List String)
    (txns : List TransactionV2ListItem) :
    (total_sales txns).recurring_plan_sales_count = txns.countP pSale ∧
    (total_sales txns).recurring_redemptions_count = txns.countP pRedeem ∧
    (total_sales txns).retail_count = txns.countP pRetail ∧
    (∀ t, (pSale t = true ∨ pRedeem t = true ∨ pRetail t = true) ∧
      ¬(pSale t = true ∧ pRedeem t = true) ∧
      ¬(pSale t = true ∧ pRetail t = true) ∧
      ¬(pRedeem t = true ∧ pRetail t = true)) ∧
    (total_sales txns).count = (total_sales txns).recurring_plan_sales_count
      + (total_sales txns).recurring_redemptions_count
      + (total_sales txns).retail_count ∧
    (total_sales txns).count = txns.length ∧
    (total_sales txns).total = (total_sales txns).recurring_plan_sales
      + (total_sales txns).recurring_redemptions + (total_sales txns).retail ∧
    (report wash_ids txns).sales = total_sales txns := by
  obtain ⟨h1, h2, h3⟩ := salesFoldl_counts txns ⟨0, 0, 0, 0, 0, 0⟩
  refine ⟨by simpa [total_sales] using h1, by simpa [total_sales] using h2,
    by simpa [total_sales] using h3, ?_, rfl, ?_, rfl, report_sales_eq wash_ids txns⟩
  · intro t
    cases hs : t.is_recurring_plan_sale <;> cases hr : t.is_recurring_plan_redemption <;>
      simp [pSale, pRedeem, pRetail, hs, hr]
  · have : (total_sales txns).count = (total_sales txns).recurring_plan_sales_count
        + (total_sales txns).recurring_redemptions_count
        + (total_sales txns).retail_count := rfl
    rw [this]
    simp only [total_sales] at h1 h2 h3 ⊢
    rw [h1, h2, h3]
    simpa using countP_sales_partition txns

/-- How one `washStep` moves the retail/eligible/free counts. -/
lemma washStep_counts (wash_ids : List String) (a : WashAcc)
    (t : TransactionV2ListItem) :
    (washStep wash_ids a t).retail_wash_count
        = a.retail_wash_count + (if pRetailWash wash_ids t then 1 else 0) ∧
    (washStep wash_ids a t).eligible_wash_count
        = a.eligible_wash_count + (if pEligibleWash wash_ids t then 1 else 0) ∧
    (washStep wash_ids a t).free_wash_count
        = a.free_wash_count + (if pFreeWash wash_ids t then 1 else 0) := by
  simp only [washStep, pRetailWash, pEligibleWash, pFreeWash, pRetail]
  rcases Bool.eq_false_or_eq_true t.is_recurring_plan_sale with hs | hs <;>
    rcases Bool.eq_false_or_eq_true t.is_recurring_plan_redemption with hr | hr <;>
      by_cases hm : t.trans_id ∈ wash_ids <;>
        rcases lt_trichotomy t.total 0 with ht | ht | ht <;>
          first
          | simp [hs, hr, hm, ht, ht.ne, ht.ne', lt_asymm ht]
          | simp [hs, hr, hm, ht, lt_irrefl]

/-- The wash-count fields of the `total_washes` fold are `countP`s. -/
lemma washFoldl_counts (wash_ids : List String) :
    ∀ (txns : List TransactionV2ListItem) (a : WashAcc),
      (txns.foldl (washStep wash_ids) a).retail_wash_count
          = a.retail_wash_count + txns.countP (pRetailWash wash_ids) ∧
      (txns.foldl (washStep wash_ids) a).eligible_wash_count
          = a.eligible_wash_count + txns.countP (pEligibleWash wash_ids) ∧
      (txns.foldl (washStep wash_ids) a).free_wash_count
          = a.free_wash_count + txns.countP (pFreeWash wash_ids) := by
  intro txns
  induction txns with
  | nil => intro a; simp
  | cons t txns ih =>
      intro a
      obtain ⟨h1, h2, h3⟩ := ih (washStep wash_ids a t)
      obtain ⟨s1, s2, s3⟩ := washStep_counts wash_ids a t
      simp only [List.foldl_cons, List.countP_cons, h1, h2, h3, s1, s2, s3]
      refine ⟨?_, ?_, ?_⟩ <;> split_ifs <;> omega

/-- How one `reportStep` moves the retail-wash counts (identical branch
conditions to `washStep`, because `report` reaches the wash counters only
in the final `else`, i.e. with both flags false). -/
lemma reportStep_washCounts (wash_ids : List String) (a : ReportAcc)
    (t : TransactionV2ListItem) :
    (reportStep wash_ids a t).retail_wash_count
        = a.retail_wash_count + (if pRetailWash wash_ids t then 1 else 0) ∧
    (reportStep wash_ids a t).eligible_wash_count
        = a.eligible_wash_count + (if pEligibleWash wash_ids t then 1 else 0) ∧
    (reportStep wash_ids a t).free_wash_count
        = a.free_wash_count + (if pFreeWash wash_ids t then 1 else 0) := by
  simp only [reportStep, pRetailWash, pEligibleWash, pFreeWash, pRetail]
  rcases Bool.eq_false_or_eq_true t.is_recurring_plan_sale with hs | hs <;>
    rcases Bool.eq_false_or_eq_true t.is_recurring_plan_redemption with hr | hr <;>
      by_cases hm : t.trans_id ∈ wash_ids <;>
        rcases lt_trichotomy t.total 0 with ht | ht | ht <;>
          first
          | simp [hs, hr, hm, ht, ht.ne, ht.ne', lt_asymm ht]
          | simp [hs, hr, hm, ht, lt_irrefl]

/-- The wash-count fields of the `report` fold are the same `countP`s. -/
lemma reportFoldl_washCounts (wash_ids : List String) :
    ∀ (txns : List TransactionV2ListItem) (a : ReportAcc),
      (txns.foldl (reportStep wash_ids) a).retail_wash_count
          = a.retail_wash_count + txns.countP (pRetailWash wash_ids) ∧
      (txns.foldl (reportStep wash_ids) a).eligible_wash_count
          = a.eligible_wash_count + txns.countP (pEligibleWash wash_ids) ∧
      (txns.foldl (reportStep wash_ids) a).free_wash_count
          = a.free_wash_count + txns.countP (pFreeWash wash_ids) := by
  intro txns
  induction txns with
  | nil => intro a; simp
  | cons t txns ih =>
      intro a
      obtain ⟨h1, h2, h3⟩ := ih (reportStep wash_ids a t)
      obtain ⟨s1, s2, s3⟩ := reportStep_washCounts wash_ids a t
      simp only [List.foldl_cons, List.countP_cons, h1, h2, h3, s1, s2, s3]
      refine ⟨?_, ?_, ?_⟩ <;> split_ifs <;> omega

/-- Every retail wash is eligible, free, or negative-total: the three
sub-counts add up to the retail wash count. -/
lemma countP_retail_split (wash_ids : List String)
    (txns : List TransactionV2ListItem) :
    txns.countP (pRetailWash wash_ids)
      = txns.countP (pEligibleWash wash_ids) + txns.countP (pFreeWash wash_ids)
        + txns.countP (pNegativeWash wash_ids) := by
  induction txns with
  | nil => simp
  | cons t txns ih =>
      simp only [List.countP_cons]
      by_cases hw : pRetailWash wash_ids t = true
      · rcases lt_trichotomy t.total 0 with ht | ht | ht <;>
          first
          | simp [pEligibleWash, pFreeWash, pNegativeWash, hw, ht, ht.ne, ht.ne',
              lt_asymm ht] <;> omega
          | simp [pEligibleWash, pFreeWash, pNegativeWash, hw, ht, lt_irrefl] <;> omega
      · simp [pEligibleWash, pFreeWash, pNegativeWash, hw, ih]

/-- C10: in the `WashResult` of `total_washes` and of `report`,
`eligible_wash_count + free_wash_count ≤ retail_wash_count`, with strict
inequality exactly when some transaction classified as a retail wash has
a negative total (counted in `retail_wash_count` but neither eligible
(`total > 0`) nor free (`total == 0`)). -/
theorem wash_bucket_invariant (wash_ids : List String)
    (txns : List TransactionV2ListItem) :
    ((total_washes wash_ids txns).eligible_wash_count
        + (total_washes wash_ids txns).free_wash_count
      ≤ (total_washes wash_ids txns).retail_wash_count) ∧
    ((total_washes wash_ids txns).eligible_wash_count
        + (total_washes wash_ids txns).free_wash_count
      < (total_washes wash_ids txns).retail_wash_count ↔
        ∃ t ∈ txns, pRetailWash wash_ids t = true ∧ t.total < 0) ∧
    ((report wash_ids txns).washes.eligible_wash_count
        + (report wash_ids txns).washes.free_wash_count
      ≤ (report wash_ids txns).washes.retail_wash_count) ∧
    ((report wash_ids txns).washes.eligible_wash_count
        + (report wash_ids txns).washes.free_wash_count
      < (report wash_ids txns).washes.retail_wash_count ↔
        ∃ t ∈ txns, pRetailWash wash_ids t = true ∧ t.total < 0) := by
  obtain ⟨w1, w2, w3⟩ := washFoldl_counts wash_ids txns ⟨0, 0, 0, 0⟩
  obtain ⟨r1, r2, r3⟩ := reportFoldl_washCounts wash_ids txns ⟨0, 0, 0, 0, 0, 0, 0, 0, 0⟩
  have hsplit := countP_retail_split wash_ids txns
  have hW : (total_washes wash_ids txns).retail_wash_count
        = txns.countP (pRetailWash wash_ids)
      ∧ (total_washes wash_ids txns).eligible_wash_count
        = txns.countP (pEligibleWash wash_ids)
      ∧ (total_washes wash_ids txns).free_wash_count
        = txns.countP (pFreeWash wash_ids) := by
    refine ⟨?_, ?_, ?_⟩ <;> simp [total_washes, w1, w2, w3]
  have hR : (report wash_ids txns).washes.retail_wash_count
        = txns.countP (pRetailWash wash_ids)
      ∧ (report wash_ids txns).washes.eligible_wash_count
        = txns.countP (pEligibleWash wash_ids)
      ∧ (report wash_ids txns).washes.free_wash_count
        = txns.countP (pFreeWash wash_ids) := by
    refine ⟨?_, ?_, ?_⟩ <;> simp [report, r1, r2, r3]
  have hexists : (0 < txns.countP (pNegativeWash wash_ids) ↔
      ∃ t ∈ txns, pRetailWash wash_ids t = true ∧ t.total < 0) := by
    rw [List.countP_pos_iff]
    constructor
    · rintro ⟨t, ht, hp⟩
      simp only [pNegativeWash, Bool.and_eq_true, decide_eq_true_eq] at hp
      exact ⟨t, ht, hp.1, hp.2⟩
    · rintro ⟨t, ht, hp1, hp2⟩
      exact ⟨t, ht, by simp [pNegativeWash, hp1, hp2]⟩
  refine ⟨?_, ?_, ?_, ?_⟩
  · rw [hW.1, hW.2.1, hW.2.2]; omega
  · rw [hW.1, hW.2.1, hW.2.2, ← hexists]; omega
  · rw [hR.1, hR.2.1, hR.2.2]; omega
  · rw [hR.1, hR.2.1, hR.2.2, ← hexists]; omega

/-- The conversion part of a `ReportAcc`:
(new memberships, eligible washes). -/
def conversionProj (a : ReportAcc) : ℕ × ℕ :=
  (a.recurring_plan_sales_count, a.eligible_wash_count)

/-- `reportStep` moves the conversion counters exactly as
`conversionStep` does. -/
lemma conversionProj_reportStep (wash_ids : List String) (a : ReportAcc)
    (t : TransactionV2ListItem) :
    conversionProj (reportStep wash_ids a t)
      = conversionStep wash_ids (conversionProj a) t := by
  simp only [reportStep, conversionStep, conversionProj]
  rcases Bool.eq_false_or_eq_true t.is_recurring_plan_sale with hs | hs <;>
    rcases Bool.eq_false_or_eq_true t.is_recurring_plan_redemption with hr | hr <;>
      by_cases hm : t.trans_id ∈ wash_ids <;>
        rcases lt_trichotomy t.total 0 with ht | ht | ht <;>
          first
          | simp [hs, hr, hm, ht, ht.ne, ht.ne', lt_asymm ht]
          | simp [hs, hr, hm, ht, lt_irrefl]

/-- The `report` fold projects onto the `conversion_rate` fold. -/
lemma conversionProj_foldl (wash_ids : List String) :
    ∀ (txns : List TransactionV2ListItem) (a : ReportAcc),
      conversionProj (txns.foldl (reportStep wash_ids) a)
        = txns.foldl (conversionStep wash_ids) (conversionProj a) := by
  intro txns
  induction txns with
  | nil => intro a; rfl
  | cons t txns ih =>
      intro a
      simp only [List.foldl_cons, ih, conversionProj_reportStep]

/-- `report` builds the same `ConversionResult` as `conversion_rate`. -/
lemma report_conversion_eq (wash_ids : List String)
    (txns : List TransactionV2ListItem) :
    (report wash_ids txns).conversion = conversion_rate wash_ids txns := by
  have h : (txns.foldl (conversionStep wash_ids) (0, 0) : ℕ × ℕ)
      = conversionProj (txns.foldl (reportStep wash_ids) ⟨0, 0, 0, 0, 0, 0, 0, 0, 0⟩) :=
    (conversionProj_foldl wash_ids txns ⟨0, 0, 0, 0, 0, 0, 0, 0, 0⟩).symm
  simp only [report, conversion_rate, h]
  rfl

/-- The wash part of a `ReportAcc` (member washes are the redemption
count). -/
def washProj (a : ReportAcc) : WashAcc :=
  ⟨a.recurring_redemptions_count, a.retail_wash_count,
   a.eligible_wash_count, a.free_wash_count⟩

/-- For a transaction that does not carry both recurring flags at once,
`reportStep` moves the wash counters exactly as `washStep` does.  (On a
both-flags transaction the two loops genuinely disagree: `total_washes`
tests the redemption flag first and counts a member wash, `report` tests
the plan-sale flag first and counts none.) -/
lemma washProj_reportStep (wash_ids : List String) (a : ReportAcc)
    (t : TransactionV2ListItem)
    (hb : ¬(t.is_recurring_plan_sale = true
        ∧ t.is_recurring_plan_redemption = true)) :
    washProj (reportStep wash_ids a t) = washStep wash_ids (washProj a) t := by
  rcases Bool.eq_false_or_eq_true t.is_recurring_plan_sale with hs | hs
  · have hr : t.is_recurring_plan_redemption = false := by
      rcases Bool.eq_false_or_eq_true t.is_recurring_plan_redemption with h | h
      · exact absurd ⟨hs, h⟩ hb
      · exact h
    simp only [reportStep, washStep, washProj]
    simp [hs, hr]
  · simp only [reportStep, washStep, washProj]
    rcases Bool.eq_false_or_eq_true t.is_recurring_plan_redemption with hr | hr <;>
      by_cases hm : t.trans_id ∈ wash_ids <;>
        rcases lt_trichotomy t.total 0 with ht | ht | ht <;>
          first
          | simp [hs, hr, hm, ht, ht.ne, ht.ne', lt_asymm ht]
          | simp [hs, hr, hm, ht, lt_irrefl]

/-- The `report` fold projects onto the `total_washes` fold on datasets
free of both-flags transactions. -/
lemma washProj_foldl (wash_ids : List String) :
    ∀ (txns : List TransactionV2ListItem) (a : ReportAcc),
      (∀ t ∈ txns, ¬(t.is_recurring_plan_sale = true
          ∧ t.is_recurring_plan_redemption = true)) →
      washProj (txns.foldl (reportStep wash_ids) a)
        = txns.foldl (washStep wash_ids) (washProj a) := by
  intro txns
  induction txns with
  | nil => intro a _; rfl
  | cons t txns ih =>
      intro a hb
      simp only [List.foldl_cons]
      rw [ih (reportStep wash_ids a t) (fun u hu => hb u (List.mem_cons_of_mem t hu)),
        washProj_reportStep wash_ids a t (hb t (List.mem_cons_self t txns))]

/-- C4: on one fetched dataset, `report` returns the same `SalesResult`
as `total_sales`, the same new-membership count as
`new_memberships_sold` and the same `ConversionResult` as
`conversion_rate`; it returns the same `WashResult` as `total_washes`
on every dataset in which no transaction carries both recurring flags
(on a both-flags transaction the two disagree, see
the counterexample). -/
theorem report_consistency (wash_ids : List String)
    (txns : List TransactionV2ListItem) :
    (report wash_ids txns).sales = total_sales txns ∧
    (report wash_ids txns).new_memberships = new_memberships_sold txns ∧
    (report wash_ids txns).conversion = conversion_rate wash_ids txns ∧
    ((∀ t ∈ txns, ¬(t.is_recurring_plan_sale = true
        ∧ t.is_recurring_plan_redemption = true)) →
      (report wash_ids txns).washes = total_washes wash_ids txns) := by
  refine ⟨report_sales_eq wash_ids txns, ?_, report_conversion_eq wash_ids txns, ?_⟩
  · have h1 : (report wash_ids txns).new_memberships
        = (report wash_ids txns).sales.recurring_plan_sales_count := rfl
    have h2 := salesFoldl_counts txns ⟨0, 0, 0, 0, 0, 0⟩
    rw [h1, report_sales_eq wash_ids txns]
    simpa [total_sales, new_memberships_sold, pSale] using h2.1
  · intro hb
    have h : (txns.foldl (washStep wash_ids) ⟨0, 0, 0, 0⟩ : WashAcc)
        = washProj (txns.foldl (reportStep wash_ids) ⟨0, 0, 0, 0, 0, 0, 0, 0, 0⟩) :=
      (washProj_foldl wash_ids txns ⟨0, 0, 0, 0, 0, 0, 0, 0, 0⟩ hb).symm
    simp only [report, total_washes, h]
    rfl

/-- C4, counterexample: on a transaction flagged as both a plan sale and
a redemption, `total_washes` counts a member wash (it tests the
redemption flag first) while `report` counts none (it tests the
plan-sale flag first), so the combined report's `WashResult` differs
from `total_washes`'. -/
theorem report_washes_counterexample :
    (report [] [⟨"x", 5, true, true⟩]).washes.member_wash_count = 0 ∧
    (total_washes [] [⟨"x", 5, true, true⟩]).member_wash_count = 1 ∧
    (report [] [⟨"x", 5, true, true⟩]).washes
      ≠ total_washes [] [⟨"x", 5, true, true⟩] := by
  refine ⟨rfl, rfl, ?_⟩
  intro h
  have h0 := congrArg WashResult.member_wash_count h
  exact absurd h0 (by norm_num [report, total_washes, reportStep, washStep])

/-- Witness for C4 on a dataset with no both-flags transaction: a single
retail wash, where `report` and `total_washes` agree. -/
theorem report_consistency_witness :
    (report ["a"] [⟨"a", 5, false, false⟩]).washes
      = total_washes ["a"] [⟨"a", 5, false, false⟩] :=
  (report_consistency ["a"] [⟨"a", 5, false, false⟩]).2.2.2
    (by
      intro t ht
      simp only [List.mem_singleton] at ht
      subst ht
      simp)

/-- C8: the conversion rate — both from `conversion_rate` and inside
`report` — is the quotient `new_memberships / eligible_washes` when the
eligible-wash count is positive and exactly `0` when it is zero: the
guard makes the division-by-zero case unreachable. -/
theorem conversion_rate_div_safe (wash_ids : List String)
    (txns : List TransactionV2ListItem) :
    ((conversion_rate wash_ids txns).eligible_washes = 0 →
      (conversion_rate wash_ids txns).rate = 0) ∧
    (0 < (conversion_rate wash_ids txns).eligible_washes →
      (conversion_rate wash_ids txns).rate
        = ((conversion_rate wash_ids txns).new_memberships : ℚ)
          / ((conversion_rate wash_ids txns).eligible_washes : ℚ)) ∧
    ((report wash_ids txns).conversion.eligible_washes = 0 →
      (report wash_ids txns).conversion.rate = 0) ∧
    (0 < (report wash_ids txns).conversion.eligible_washes →
      (report wash_ids txns).conversion.rate
        = ((report wash_ids txns).conversion.new_memberships : ℚ)
          / ((report wash_ids txns).conversion.eligible_washes : ℚ)) := by
  refine ⟨?_, ?_, ?_, ?_⟩
  · intro h
    simp only [conversion_rate] at h ⊢
    rw [if_neg (by omega)]
  · intro h
    simp only [conversion_rate] at h ⊢
    rw [if_pos h]
  · intro h
    simp only [report] at h ⊢
    rw [if_neg (by omega)]
  · intro h
    simp only [report] at h ⊢
    rw [if_pos h]

/-- Witness for C8: an empty dataset has zero eligible washes and rate
exactly `0`; a dataset with one plan sale and one eligible wash has rate
`new_memberships / eligible_washes = 1 / 1`. -/
theorem conversion_rate_div_safe_witness :
    (conversion_rate [] []).rate = 0 ∧
    (conversion_rate ["a"] [⟨"a", 5, false, false⟩, ⟨"b", 9, true, false⟩]).rate
      = ((conversion_rate ["a"]
            [⟨"a", 5, false, false⟩, ⟨"b", 9, true, false⟩]).new_memberships : ℚ)
        / ((conversion_rate ["a"]
            [⟨"a", 5, false, false⟩, ⟨"b", 9, true, false⟩]).eligible_washes : ℚ) ∧
    (report [] []).conversion.rate = 0 :=
  ⟨(conversion_rate_div_safe [] []).1 rfl,
   (conversion_rate_div_safe ["a"]
      [⟨"a", 5, false, false⟩, ⟨"b", 9, true, false⟩]).2.1
      (by norm_num [conversion_rate, conversionStep]),
   (conversion_rate_div_safe [] []).2.2.1 rfl⟩

/-! ## Batch job poller (`resources/_transactions.py`,
`Transactions._submit_and_poll`)

The submission POST yields one HTTP call and an opaque hash; the poll
loop then issues one GET per iteration.  The scripted server behaviour
is a list of `(body, now)` pairs: the decoded `data` object of the
`i`-th poll together with the `time.monotonic()` reading at that
iteration's deadline check.  The loop is modelled structurally on that
list; an exhausted script yields `noResponse` (the Python loop would
still be running), so every claim is settled on runs that finish within
the script. -/

/-- The `status` string of a poll body: `"pass"`, `"fail"`, or anything
else (treated as still working). -/
inductive PollStatus where
  | pass
  | fail
  | other (s : String)
deriving Repr, DecidableEq

/-- The decoded `data` object of one `/transaction/get-job-data`
response. -/
structure PollBody where
  status : PollStatus
  data : List ℤ
  total : Option ℕ
deriving Repr, DecidableEq

/-- Terminal outcome of one `_submit_and_poll` call. -/
inductive JobOutcome where
  /-- `status == "pass"`: raw items and the total
  (`body.get("total", len(body["data"]))`). -/
  | passed (items : List ℤ) (total : ℕ)
  /-- `status == "fail"`: `APIError("Batch job failed")`. -/
  | failed
  /-- deadline reached: `APITimeoutError(... within {timeout}s)`,
  carrying the configured timeout. -/
  | timedOut (timeout : ℚ)
  /-- the scripted responses ran out with the loop still going. -/
  | noResponse
deriving Repr, DecidableEq

/-- The `while True` poll loop of `_submit_and_poll`: checks `pass`,
then `fail`, then the deadline, then sleeps `poll_interval` and polls
again.  Returns (number of polls made, sleeps performed, outcome). -/
def pollLoop (poll_interval deadline timeout : ℚ) :
    List (PollBody × ℚ) → ℕ × List ℚ × JobOutcome
  | [] => (0, [], .noResponse)
  | (b, now) :: rest =>
    match b.status with
    | .pass => (1, [], .passed b.data (b.total.getD b.data.length))
    | .fail => (1, [], .failed)
    | .other _ =>
      if deadline ≤ now then
        (1, [], .timedOut timeout)
      else
        let r := pollLoop poll_interval deadline timeout rest
        (r.1 + 1, poll_interval :: r.2.1, r.2.2)

/-- `Transactions._submit_and_poll`: one POST (the submission), then the
poll loop against `deadline = time.monotonic() + timeout` where the
clock reading right after submission is `submitTime`.  Returns (number
of HTTP calls, sleeps, outcome). -/
def submitAndPoll (poll_interval timeout submitTime : ℚ)
    (polls : List (PollBody × ℚ)) : ℕ × List ℚ × JobOutcome :=
  let r := pollLoop poll_interval (submitTime + timeout) timeout polls
  (1 + r.1, r.2)

/-- Splitting the poll loop across a prefix of still-working,
before-deadline polls. -/
lemma pollLoop_workingPrefix (poll_interval deadline timeout : ℚ) :
    ∀ (pre rest : List (PollBody × ℚ)),
      (∀ p ∈ pre, (∃ s, p.1.status = PollStatus.other s) ∧ p.2 < deadline) →
      pollLoop poll_interval deadline timeout (pre ++ rest)
        = ((pollLoop poll_interval deadline timeout rest).1 + pre.length,
           List.replicate pre.length poll_interval
             ++ (pollLoop poll_interval deadline timeout rest).2.1,
           (pollLoop poll_interval deadline timeout rest).2.2) := by
  intro pre
  induction pre with
  | nil => intro rest _; simp
  | cons p pre ih =>
      intro rest hpre
      obtain ⟨b, now⟩ := p
      obtain ⟨⟨s, hs⟩, hlt⟩ := hpre (b, now) (List.mem_cons_self _ _)
      have hs' : b.status = PollStatus.other s := hs
      have hrest := ih rest (fun q hq => hpre q (List.mem_cons_of_mem _ hq))
      have hstep : pollLoop poll_interval deadline timeout (((b, now) :: pre) ++ rest)
          = ((pollLoop poll_interval deadline timeout (pre ++ rest)).1 + 1,
             poll_interval :: (pollLoop poll_interval deadline timeout (pre ++ rest)).2.1,
             (pollLoop poll_interval deadline timeout (pre ++ rest)).2.2) := by
        simp only [List.cons_append, pollLoop, hs', List.append_eq]
        rw [if_neg (not_le.mpr hlt)]
      rw [hstep, hrest]
      simp [List.replicate_succ, Prod.ext_iff]
      omega

/-- A poll that is followed by another poll was a still-working response
observed strictly before the deadline. -/
lemma pollLoop_continue (poll_interval deadline timeout : ℚ) :
    ∀ (polls : List (PollBody × ℚ)) (i : ℕ),
      i + 1 < (pollLoop poll_interval deadline timeout polls).1 →
      ∃ b now, polls[i]? = some (b, now) ∧
        (∃ s, b.status = PollStatus.other s) ∧ now < deadline := by
  intro polls
  induction polls with
  | nil => intro i h; simp [pollLoop] at h
  | cons p rest ih =>
      intro i h
      obtain ⟨b, now⟩ := p
      cases hst : b.status with
      | pass => simp [pollLoop, hst] at h
      | fail => simp [pollLoop, hst] at h
      | other s =>
          simp only [pollLoop, hst] at h
          by_cases hd : deadline ≤ now
          · rw [if_pos hd] at h
            simp at h
          · rw [if_neg hd] at h
            simp only at h
            cases i with
            | zero => exact ⟨b, now, by simp, ⟨s, hst⟩, not_le.mp hd⟩
            | succ j =>
                obtain ⟨b', now', hget, hw, hlt⟩ := ih j (by omega)
                exact ⟨b', now', by simpa using hget, hw, hlt⟩

/-- C5: a first poll answering `pass` returns the decoded items (with
the server total, defaulting to the item count) after exactly 2 HTTP
calls — the submit plus one poll — and no sleep; after any prefix of
still-working polls observed before the deadline, a `fail` poll raises
the batch-failure outcome at once with no further polling (exactly one
sleep per completed working poll), and a still-working poll observed at
or past the deadline raises the timeout outcome carrying the configured
`timeout`; and whenever an `i+1`-st poll happens, the `i`-th poll was a
working response seen strictly before the deadline — no poll is retried
past the deadline. -/
theorem submitAndPoll_spec (poll_interval timeout submitTime : ℚ) :
    (∀ (b : PollBody) (now : ℚ) (rest : List (PollBody × ℚ)),
      b.status = PollStatus.pass →
      submitAndPoll poll_interval timeout submitTime ((b, now) :: rest)
        = (2, [], .passed b.data (b.total.getD b.data.length))) ∧
    (∀ (pre : List (PollBody × ℚ)) (b : PollBody) (now : ℚ)
        (rest : List (PollBody × ℚ)),
      (∀ p ∈ pre, (∃ s, p.1.status = PollStatus.other s)
          ∧ p.2 < submitTime + timeout) →
      b.status = PollStatus.fail →
      submitAndPoll poll_interval timeout submitTime (pre ++ (b, now) :: rest)
        = (1 + (pre.length + 1), List.replicate pre.length poll_interval,
           .failed)) ∧
    (∀ (pre : List (PollBody × ℚ)) (b : PollBody) (s : String) (now : ℚ)
        (rest : List (PollBody × ℚ)),
      (∀ p ∈ pre, (∃ u, p.1.status = PollStatus.other u)
          ∧ p.2 < submitTime + timeout) →
      b.status = PollStatus.other s → submitTime + timeout ≤ now →
      submitAndPoll poll_interval timeout submitTime (pre ++ (b, now) :: rest)
        = (1 + (pre.length + 1), List.replicate pre.length poll_interval,
           .timedOut timeout)) ∧
    (∀ (polls : List (PollBody × ℚ)) (i : ℕ),
      i + 2 < (submitAndPoll poll_interval timeout submitTime polls).1 →
      ∃ b now, polls[i]? = some (b, now) ∧
        (∃ s, b.status = PollStatus.other s) ∧ now < submitTime + timeout) := by
  refine ⟨?_, ?_, ?_, ?_⟩
  · intro b now rest hb
    simp [submitAndPoll, pollLoop, hb]
  · intro pre b now rest hpre hb
    rw [submitAndPoll, pollLoop_workingPrefix _ _ _ pre _ hpre]
    simp [pollLoop, hb]
    omega
  · intro pre b s now rest hpre hb hd
    rw [submitAndPoll, pollLoop_workingPrefix _ _ _ pre _ hpre]
    simp [pollLoop, hb, if_pos hd]
    omega
  · intro polls i h
    refine pollLoop_continue poll_interval (submitTime + timeout) timeout polls i ?_
    simp only [submitAndPoll] at h
    omega

/-- Witness for C5: interval 2, timeout 300, submit at time 0.  A `pass`
on the first poll gives 2 HTTP calls and the items; one working poll at
time 1 then a `fail` at time 3 gives 3 HTTP calls, one sleep, failure;
a working poll at time 400 ≥ 300 gives the timeout outcome carrying
300; in a three-poll run the first poll was a working response before
the deadline. -/
theorem submitAndPoll_spec_witness :
    submitAndPoll 2 300 0 [(⟨.pass, [7], none⟩, 1)] = (2, [], .passed [7] 1) ∧
    submitAndPoll 2 300 0
        [(⟨.other "working", [], none⟩, 1), (⟨.fail, [], none⟩, 3)]
      = (3, [2], .failed) ∧
    submitAndPoll 2 300 0 [(⟨.other "working", [], none⟩, 400)]
      = (2, [], .timedOut 300) ∧
    (∃ b now,
      ([(⟨PollStatus.other "working", [], none⟩, (1 : ℚ)),
        (⟨PollStatus.other "working", [], none⟩, 3),
        (⟨PollStatus.pass, [7], none⟩, 5)] : List (PollBody × ℚ))[0]?
          = some (b, now) ∧
      (∃ s, b.status = PollStatus.other s) ∧ now < 0 + 300) := by
  have h := submitAndPoll_spec 2 300 0
  refine ⟨h.1 ⟨.pass, [7], none⟩ 1 [] rfl, ?_, ?_, ?_⟩
  · have := h.2.1 [(⟨.other "working", [], none⟩, 1)] ⟨.fail, [], none⟩ 3 []
      (by
        intro p hp
        simp only [List.mem_singleton] at hp
        subst hp
        exact ⟨⟨"working", rfl⟩, by norm_num⟩)
      rfl
    simpa using this
  · have := h.2.2.1 [] ⟨.other "working", [], none⟩ "working" 400 []
      (by intro p hp; simp at hp) rfl (by norm_num)
    simpa using this
  · refine h.2.2.2 _ 0 ?_
    norm_num [submitAndPoll, pollLoop]

/-! ## Date range validation (`_date_utils.py`)

`_normalize` maps a string or `datetime` input to one timezone-aware UTC
datetime, modelled here as an instant in whole seconds (`ℤ`).  ISO-8601
parsing and timezone conversion are abstracted into that instant (both
`astimezone` and the naive-input localization preserve and determine it);
what is kept explicit is the branch the claim exercises: a date-only
string (one with no `"T"`) receives the boundary time 00:00:01 under the
`"start"` role and 23:59:59 under the `"end"` role before parsing. -/

/-- Input shape of `parse_date_range` arguments: a `datetime` object, a
date-only ISO string, or an ISO string with a time part. -/
inductive DateInput where
  /-- a `datetime` object denoting instant `t`. -/
  | dt (t : ℤ)
  /-- a `"YYYY-MM-DD"` string whose midnight is instant `d * 86400`. -/
  | dateOnly (d : ℤ)
  /-- an ISO string containing `"T"`, parsing to instant `t`. -/
  | dateTimeStr (t : ℤ)
deriving Repr, DecidableEq

/-- `_normalize(value, tz=..., role=...)` as the UTC instant it
produces. -/
def normalize (value : DateInput) (role : String) : ℤ :=
  match value with
  | .dateOnly d => if role = "start" then d * 86400 + 1 else d * 86400 + 86399
  | .dt t => t
  | .dateTimeStr t => t

/-- `parse_date_range(start, end)`: normalize both ends, fail when
`start_dt > end_dt`, else return the normalized pair. -/
def parse_date_range (start stop : DateInput) : Except String (ℤ × ℤ) :=
  let start_dt := normalize start "start"
  let end_dt := normalize stop "end"
  if start_dt > end_dt then .error "start must be before or equal to end"
  else .ok (start_dt, end_dt)

/-- C9: `parse_date_range` fails exactly when the normalized start lies
strictly after the normalized end, and on equal inputs — string or
datetime — it succeeds with a normalized, ordered pair (a date-only
string gets 00:00:01 as start and 23:59:59 as end of the same day, a
datetime or timed string normalizes to the same instant on both
sides). -/
theorem parse_date_range_spec (start stop : DateInput) :
    ((∃ msg, parse_date_range start stop = .error msg) ↔
      normalize stop "end" < normalize start "start") ∧
    (∀ x : DateInput, ∃ a b, parse_date_range x x = .ok (a, b) ∧ a ≤ b) := by
  constructor
  · constructor
    · rintro ⟨msg, hmsg⟩
      by_contra hlt
      simp only [parse_date_range, gt_iff_lt, if_neg hlt] at hmsg
      cases hmsg
    · intro hlt
      exact ⟨"start must be before or equal to end",
        by simp only [parse_date_range, gt_iff_lt, if_pos hlt]⟩
  · intro x
    cases x with
    | dt t =>
        exact ⟨t, t, by simp [parse_date_range, normalize], le_refl t⟩
    | dateOnly d =>
        have h1 : normalize (.dateOnly d) "start" = d * 86400 + 1 := by
          simp [normalize]
        have h2 : normalize (.dateOnly d) "end" = d * 86400 + 86399 := by
          simp only [normalize]
          rw [if_neg (by decide)]
        refine ⟨d * 86400 + 1, d * 86400 + 86399, ?_, by omega⟩
        simp only [parse_date_range, h1, h2, gt_iff_lt]
        rw [if_neg (by omega)]
    | dateTimeStr t =>
        exact ⟨t, t, by simp [parse_date_range, normalize], le_refl t⟩

end SonnysData
